import Mathlib

/-!
Verification of the IMC contact-model server (`src/imc.py`) against its
natural-language specification.

The Python source is shallowly embedded:
* machine floats that only ever carry finite values relevant to a claim are
  modelled as rationals (`ℚ`);
* floats whose NaN/Inf behaviour a claim is about are modelled by the
  inductive type `Flt` (finite rational, NaN, +Inf, -Inf) with IEEE-style
  addition and scalar multiplication;
* the external `numba`/`numpy` minimum-distance primitives and the pickled
  gradient/Hessian providers (loaded from `grads_hessian_functions/`, not part
  of the repository source) are opaque function parameters;
* stateful code (the ZMQ server loop, shared-memory buffers) becomes explicit
  state passing over the structure `SrvState`, with Python exceptions
  (`assert`, reading the undefined `edge_ids`) modelled by `Except SrvErr`.
-/

namespace IMC

/-- Constant `self.ia = 2`: number of adjacent edges on each side whose contact is
ignored (`IMC.__init__`, line 46). -/
def ia : ℕ := 2

/-- The edge-pair table `self.edge_ids` built once in `IMC.__init__`
(lines 61-66): for each `i`, the block of rows `(i, j)` for
`j = i+ia+1, …, num_edges-1`.  The Python loop writes these blocks into a
preallocated array at consecutive offsets `ri`; blocks with a non-positive
length `add = num_edges - i - (ia+1)` write nothing (empty numpy slices), so
the rows are exactly this concatenation. -/
def mkEdgeIds (numEdges : ℕ) : List (ℕ × ℕ) :=
  ((List.range numEdges).map (fun i =>
    (List.range' (i + ia + 1) (numEdges - (i + ia + 1))).map (fun j => (i, j)))).flatten

/-- The pair-counting double loop of `IMC.__init__` (lines 50-54): for
`i < num_edges`, `j ∈ [i, num_edges)`, a pair is counted unless
`i ∈ range(j-ia, j+ia+1)`.  That Python membership test is
`j - ia ≤ i ∧ i ≤ j + ia` over the integers, which for naturals `i, j` is
exactly `j ≤ i + ia ∧ i ≤ j + ia`. -/
def numEdgeCombos (numEdges : ℕ) : ℕ :=
  ((List.range numEdges).map (fun i =>
    ((List.range numEdges).filter (fun j =>
      decide (i ≤ j ∧ ¬(j ≤ i + ia ∧ i ≤ j + ia)))).length)).sum

/-- Strict lexicographic order on edge-id pairs. -/
def pairLexLt (a b : ℕ × ℕ) : Prop :=
  a.1 < b.1 ∨ (a.1 = b.1 ∧ a.2 < b.2)

lemma mem_mkEdgeIds {numEdges i j : ℕ} :
    (i, j) ∈ mkEdgeIds numEdges ↔ i < j ∧ j < numEdges ∧ j - i > ia := by
  unfold mkEdgeIds ia
  constructor
  · intro h
    rcases List.mem_flatten.1 h with ⟨l, hl, hmem⟩
    rcases List.mem_map.1 hl with ⟨i', hi', rfl⟩
    rcases List.mem_map.1 hmem with ⟨j', hj', heq⟩
    rcases List.mem_range'.1 hj' with ⟨t, ht, rfl⟩
    injection heq with h1 h2
    subst h1
    subst h2
    have hi'' := List.mem_range.1 hi'
    omega
  · rintro ⟨hij, hjn, hgt⟩
    refine List.mem_flatten.2
      ⟨(List.range' (i + 2 + 1) (numEdges - (i + 2 + 1))).map (fun j => (i, j)),
        List.mem_map.2 ⟨i, List.mem_range.2 (by omega), rfl⟩, ?_⟩
    refine List.mem_map.2 ⟨j, ?_, rfl⟩
    exact List.mem_range'.2 ⟨j - (i + 2 + 1), by omega, by omega⟩

lemma pairwise_mkEdgeIds (numEdges : ℕ) :
    List.Pairwise pairLexLt (mkEdgeIds numEdges) := by
  unfold mkEdgeIds
  refine List.pairwise_flatten.2 ⟨?_, ?_⟩
  · intro l hl
    rcases List.mem_map.1 hl with ⟨i, _, rfl⟩
    refine List.pairwise_map.2 ?_
    refine (List.pairwise_lt_range' _ _).imp ?_
    intro a b hab
    exact Or.inr ⟨rfl, hab⟩
  · refine List.pairwise_map.2 ?_
    refine (List.pairwise_lt_range numEdges).imp ?_
    intro i₁ i₂ h12
    intro x hx y hy
    rcases List.mem_map.1 hx with ⟨_, _, rfl⟩
    rcases List.mem_map.1 hy with ⟨_, _, rfl⟩
    exact Or.inl h12

lemma nodup_mkEdgeIds (numEdges : ℕ) : (mkEdgeIds numEdges).Nodup := by
  refine (pairwise_mkEdgeIds numEdges).imp ?_
  intro a b hab heq
  cases heq
  rcases hab with h | ⟨_, h⟩ <;> exact absurd h (lt_irrefl _)

lemma length_mkEdgeIds (numEdges : ℕ) :
    (mkEdgeIds numEdges).length =
      ((List.range numEdges).map (fun i => numEdges - i - (ia + 1))).sum := by
  unfold mkEdgeIds
  rw [List.length_flatten, List.map_map]
  congr 1
  refine List.map_congr_left ?_
  intro i _
  simp only [Function.comp_apply, List.length_map, List.length_range']
  omega

lemma filter_count_aux (i : ℕ) : ∀ n : ℕ,
    ((List.range n).filter (fun j =>
      decide (i ≤ j ∧ ¬(j ≤ i + ia ∧ i ≤ j + ia)))).length = n - (i + ia + 1) := by
  intro n
  induction n with
  | zero => simp
  | succ m hm =>
    rw [List.range_succ, List.filter_append, List.length_append, hm]
    by_cases h : i + ia + 1 ≤ m
    · have hp : (decide (i ≤ m ∧ ¬(m ≤ i + ia ∧ i ≤ m + ia))) = true := by
        simp only [decide_eq_true_eq]
        omega
      simp only [List.filter_cons, List.filter_nil, hp, if_true, List.length_cons,
        List.length_nil]
      have hia : ia = 2 := rfl
      omega
    · have hp : (decide (i ≤ m ∧ ¬(m ≤ i + ia ∧ i ≤ m + ia))) = false := by
        simp only [decide_eq_false_iff_not]
        omega
      simp only [List.filter_cons, List.filter_nil, hp, Bool.false_eq_true, if_false,
        List.length_nil]
      have hia : ia = 2 := rfl
      omega

lemma numEdgeCombos_eq_length (numEdges : ℕ) :
    numEdgeCombos numEdges = (mkEdgeIds numEdges).length := by
  rw [length_mkEdgeIds]
  unfold numEdgeCombos
  congr 1
  refine List.map_congr_left ?_
  intro i _
  rw [filter_count_aux]
  omega

/-- C4. The edge-pair table built at startup contains exactly the pairs
`(i, j)` with `0 ≤ i < j < num_edges` and `j - i > ia` (`ia = 2`), each
exactly once, in ascending lexicographic order; the allocated size computed by
the counting loop equals `Σ_i max(0, num_edges - i - (ia+1))` (here the
truncated natural subtraction `num_edges - i - (ia+1)`) and coincides with the
number of rows actually filled in.  In this functional embedding the table is
a pure value of `num_edges`, never rebuilt or modified after construction. -/
theorem edge_pair_table_correct (numEdges : ℕ) :
    (∀ i j : ℕ, (i, j) ∈ mkEdgeIds numEdges ↔ i < j ∧ j < numEdges ∧ j - i > ia) ∧
    List.Pairwise pairLexLt (mkEdgeIds numEdges) ∧
    (mkEdgeIds numEdges).Nodup ∧
    (mkEdgeIds numEdges).length =
      ((List.range numEdges).map (fun i => numEdges - i - (ia + 1))).sum ∧
    numEdgeCombos numEdges = (mkEdgeIds numEdges).length :=
  ⟨fun _ _ => mem_mkEdgeIds, pairwise_mkEdgeIds numEdges, nodup_mkEdgeIds numEdges,
    length_mkEdgeIds numEdges, numEdgeCombos_eq_length numEdges⟩

/-- Model of an IEEE-754 double as far as the claims need it: a finite value
(modelled as a rational), NaN, `+inf`, or `-inf`. -/
inductive Flt where
  | fin (q : ℚ)
  | nan
  | pinf
  | ninf
deriving DecidableEq, Repr

namespace Flt

/-- IEEE addition on `Flt`: NaN propagates, `inf + (-inf)` is NaN, an
infinity absorbs finite values. -/
def add : Flt → Flt → Flt
  | nan, _ => nan
  | _, nan => nan
  | pinf, ninf => nan
  | ninf, pinf => nan
  | pinf, _ => pinf
  | _, pinf => pinf
  | ninf, _ => ninf
  | _, ninf => ninf
  | fin a, fin b => fin (a + b)

/-- IEEE multiplication by a finite scalar `k` (the contact stiffness):
`0 * inf` is NaN, the sign of `k` flips infinities. -/
def mulQ (k : ℚ) : Flt → Flt
  | fin a => fin (k * a)
  | nan => nan
  | pinf => if 0 < k then pinf else if k < 0 then ninf else nan
  | ninf => if 0 < k then ninf else if k < 0 then pinf else nan

def isNan : Flt → Bool
  | nan => true
  | _ => false

/-- Predicate `np.isinf`: true exactly on the two infinities. -/
def isInf : Flt → Bool
  | pinf => true
  | ninf => true
  | _ => false

def isFin : Flt → Bool
  | fin _ => true
  | _ => false

/-- Model of `np.sum` over a flat list of doubles (left fold, starting from `0.0`). -/
def sum (l : List Flt) : Flt := l.foldl add (fin 0)

lemma add_not_fin {a b : Flt} (h : a.isFin = false ∨ b.isFin = false) :
    (a.add b).isFin = false := by
  cases a <;> cases b <;> simp [add, isFin] at h ⊢

lemma foldl_add_not_fin :
    ∀ (l : List Flt) (acc : Flt), (acc.isFin = false ∨ ∃ v ∈ l, v.isFin = false) →
      (l.foldl add acc).isFin = false := by
  intro l
  induction l with
  | nil =>
    intro acc h
    rcases h with h | ⟨v, hv, _⟩
    · exact h
    · exact absurd hv (List.not_mem_nil v)
  | cons x xs ih =>
    intro acc h
    rcases h with h | ⟨v, hv, hvf⟩
    · exact ih (acc.add x) (Or.inl (add_not_fin (Or.inl h)))
    · rcases List.mem_cons.1 hv with rfl | hv'
      · exact ih (acc.add v) (Or.inl (add_not_fin (Or.inr hvf)))
      · exact ih (acc.add x) (Or.inr ⟨v, hv', hvf⟩)

lemma sum_not_fin {l : List Flt} (h : ∃ v ∈ l, v.isFin = false) :
    (Flt.sum l).isFin = false :=
  foldl_add_not_fin l (fin 0) (Or.inr h)

lemma not_fin_nan_or_inf {x : Flt} (h : x.isFin = false) :
    x.isNan = true ∨ x.isInf = true := by
  cases x <;> simp [isFin, isNan, isInf] at h ⊢

end Flt

/-- Error events of the Python process, as observable at the server loop:
`emptyMin` is the `ValueError` `np.min` raises on an empty array,
`undefinedActive` the `AttributeError` from reading `edge_ids.shape` while
`edge_ids` is still `None`, `forceNan`/`forceInf` the two `AssertionError`s of
`IMC._get_forces` (lines 375-376). -/
inductive SrvErr where
  | emptyMin
  | undefinedActive
  | forceNan
  | forceInf
deriving DecidableEq, Repr

/-- Model of `np.min` of a nonempty array; the empty case is handled by the callers
(the source raises there, see `SrvErr.emptyMin`). -/
def listMin : List ℚ → ℚ
  | [] => 0
  | x :: xs => xs.foldl min x

lemma foldl_min_mem : ∀ (xs : List ℚ) (x : ℚ), xs.foldl min x ∈ x :: xs := by
  intro xs
  induction xs with
  | nil => intro x; simp
  | cons y ys ih =>
    intro x
    have h := ih (min x y)
    simp only [List.foldl_cons]
    rcases List.mem_cons.1 h with h' | h'
    · rw [h']
      rcases min_choice x y with hc | hc <;> rw [hc]
      · exact List.mem_cons_self _ _
      · exact List.mem_cons.2 (Or.inr (List.mem_cons_self _ _))
    · exact List.mem_cons.2 (Or.inr (List.mem_cons.2 (Or.inr h')))

lemma foldl_min_le : ∀ (xs : List ℚ) (x : ℚ), ∀ d ∈ x :: xs, xs.foldl min x ≤ d := by
  intro xs
  induction xs with
  | nil =>
    intro x d hd
    rcases List.mem_cons.1 hd with rfl | h
    · exact le_refl d
    · exact absurd h (List.not_mem_nil d)
  | cons y ys ih =>
    intro x d hd
    simp only [List.foldl_cons]
    have hmem : d = x ∨ d = y ∨ d ∈ ys := by
      rcases List.mem_cons.1 hd with h1 | h2
      · exact Or.inl h1
      · rcases List.mem_cons.1 h2 with h3 | h4
        · exact Or.inr (Or.inl h3)
        · exact Or.inr (Or.inr h4)
    rcases hmem with h1 | h1 | h1
    · rw [h1]
      exact le_trans (ih (min x y) (min x y) (List.mem_cons_self _ _)) (min_le_left _ _)
    · rw [h1]
      exact le_trans (ih (min x y) (min x y) (List.mem_cons_self _ _)) (min_le_right _ _)
    · exact ih (min x y) d (List.mem_cons.2 (Or.inr h1))

lemma listMin_mem {l : List ℚ} (h : l ≠ []) : listMin l ∈ l := by
  cases l with
  | nil => exact absurd rfl h
  | cons x xs => exact foldl_min_mem xs x

lemma listMin_le {l : List ℚ} (d : ℚ) (hd : d ∈ l) : listMin l ≤ d := by
  cases l with
  | nil => exact absurd hd (List.not_mem_nil d)
  | cons x xs => exact foldl_min_le xs x d hd

/-- The 12-scalar combined-edge row for the pair `(i, j)`: the numpy slices
`node_data[3i : 3i+6] ++ node_data[3j : 3j+6]` (`IMC._jit_detect_collisions`
lines 159-169 and `IMC._jit_prepare_edges` lines 211-214). -/
def combo12 (nodeData : List ℚ) (p : ℕ × ℕ) : List ℚ :=
  ((nodeData.drop (3 * p.1)).take 6) ++ ((nodeData.drop (3 * p.2)).take 6)

/-- Embedding of `IMC._jit_detect_collisions` (lines 152-182).  The segment-segment
minimum-distance primitive `min_dist_vectorized` lives in the external module
`imc_utils` and is passed in as the opaque per-row function `minDist`.  The
function returns the filtered edge-id rows (`edge_ids[np.where(minDs -
contact_len < collision_limit)]`) together with `np.min(minDs)`; on a rod
without eligible pairs `np.min` of the empty distance array raises
(`SrvErr.emptyMin`). -/
def jitDetectCollisions (minDist : List ℚ → ℚ) (numEdges : ℕ) (nodeData : List ℚ)
    (contactLen collisionLimit : ℚ) : Except SrvErr (List (ℕ × ℕ) × ℚ) :=
  let pairs := mkEdgeIds numEdges
  let minDs := pairs.map (fun p => minDist (combo12 nodeData p))
  let act := ((pairs.zip minDs).filter
    (fun pd => decide (pd.2 - contactLen < collisionLimit))).map Prod.fst
  if minDs.isEmpty then Except.error SrvErr.emptyMin
  else Except.ok (act, listMin minDs)

lemma zip_map_filter_fst {α : Type} (f : α → ℚ) (cl lim : ℚ) :
    ∀ l : List α,
      ((l.zip (l.map f)).filter (fun pd => decide (pd.2 - cl < lim))).map Prod.fst
        = l.filter (fun x => decide (f x - cl < lim)) := by
  intro l
  induction l with
  | nil => rfl
  | cons x xs ih =>
    simp only [List.map_cons, List.zip_cons_cons, List.filter_cons]
    by_cases h : decide (f x - cl < lim) = true
    · simp only [h, if_true, List.map_cons, ih]
    · simp only [h, Bool.false_eq_true, if_false, ih]

/-- C5. For every position buffer (and every behaviour of the opaque
minimum-distance primitive), provided the rod has at least one eligible pair,
the Collision Detector returns as active exactly those edge-pair-table
entries whose minimum distance minus `contact_len` is strictly below
`collision_limit` (in table order), and it also returns the minimum distance
over *all* eligible pairs — a member of the full distance list bounding every
entry from below — whether or not any pair passed the filter. -/
theorem detect_collisions_correct (minDist : List ℚ → ℚ) (numEdges : ℕ)
    (nodeData : List ℚ) (contactLen collisionLimit : ℚ)
    (hne : mkEdgeIds numEdges ≠ []) :
    jitDetectCollisions minDist numEdges nodeData contactLen collisionLimit
      = Except.ok ((mkEdgeIds numEdges).filter
          (fun p => decide (minDist (combo12 nodeData p) - contactLen < collisionLimit)),
        listMin ((mkEdgeIds numEdges).map (fun p => minDist (combo12 nodeData p)))) ∧
    listMin ((mkEdgeIds numEdges).map (fun p => minDist (combo12 nodeData p)))
      ∈ (mkEdgeIds numEdges).map (fun p => minDist (combo12 nodeData p)) ∧
    ∀ d ∈ (mkEdgeIds numEdges).map (fun p => minDist (combo12 nodeData p)),
      listMin ((mkEdgeIds numEdges).map (fun p => minDist (combo12 nodeData p))) ≤ d := by
  have hmapne : (mkEdgeIds numEdges).map (fun p => minDist (combo12 nodeData p)) ≠ [] :=
    fun h => hne (List.map_eq_nil_iff.1 h)
  refine ⟨?_, listMin_mem hmapne, fun d hd => listMin_le d hd⟩
  unfold jitDetectCollisions
  rw [if_neg (fun h => hmapne (List.isEmpty_iff.1 h))]
  rw [zip_map_filter_fst (fun p => minDist (combo12 nodeData p)) contactLen collisionLimit]

unseal Rat.add Rat.sub Rat.mul Rat.inv in
/-- C5 witness. A rod with 4 edges has the single eligible pair `(0, 3)`;
with a constant distance primitive below the threshold the detector reports
it active and returns that distance as the minimum. -/
theorem detect_collisions_correct_witness :
    mkEdgeIds 4 ≠ [] ∧
    jitDetectCollisions (fun _ => (2 : ℚ)) 4 [] 0 3 = Except.ok ([(0, 3)], 2) := by
  refine ⟨by decide, ?_⟩
  have h := (detect_collisions_correct (fun _ => (2 : ℚ)) 4 [] 0 3 (by decide)).1
  rw [h]
  rfl

/-- The all-zeros 12-dof vector (`np.zeros(12)` per pair,
`IMC._chain_rule_contact_nohess` line 275 / `_chain_rule_contact_hess`
line 247). -/
def zeros12 : Fin 12 → ℚ := fun _ => 0

/-- Embedding of `IMC._chain_rule_contact_nohess` (lines 271-281), per active pair:
starting from zeros, add the matrix product `s_grad_vals[:, :9] @ dd_grads`,
then loop `for i in range(6): dE_dx += s_grad_vals[:, i+9] * f_grad_vals[i]`. -/
def chainRuleContactNohess (ddGrads : Fin 9 → Fin 12 → ℚ)
    (fGradVals : Fin 6 → Fin 12 → ℚ) (sGradVals : Fin 15 → ℚ) : Fin 12 → ℚ :=
  (List.finRange 6).foldl
    (fun acc i c => acc c + sGradVals ⟨i.val + 9, by omega⟩ * fGradVals i c)
    (fun c => zeros12 c + ∑ r : Fin 9, sGradVals (Fin.castLE (by omega) r) * ddGrads r c)

/-- The force (`dE_dx`) part of `IMC._optimize_chain_rule` (lines 230-233):
identical loop structure, but accumulating into the caller-supplied `dE_dx`
buffer (which `_chain_rule_contact_hess` passes as zeros). -/
def optimizeChainRuleDEdx (ddGrads : Fin 9 → Fin 12 → ℚ)
    (fGradVals : Fin 6 → Fin 12 → ℚ) (sGradVals : Fin 15 → ℚ)
    (dEdx : Fin 12 → ℚ) : Fin 12 → ℚ :=
  (List.finRange 6).foldl
    (fun acc i c => acc c + sGradVals ⟨i.val + 9, by omega⟩ * fGradVals i c)
    (fun c => dEdx c + ∑ r : Fin 9, sGradVals (Fin.castLE (by omega) r) * ddGrads r c)

/-- The specification's chain-rule formula (spec §4.3):
`dE/dx = s_grad[:9] · dd + Σ_{k=0..5} s_grad[9+k] · f_grad[k]`. -/
def specContactForce (ddGrads : Fin 9 → Fin 12 → ℚ)
    (fGradVals : Fin 6 → Fin 12 → ℚ) (sGradVals : Fin 15 → ℚ) : Fin 12 → ℚ :=
  fun c => (∑ r : Fin 9, sGradVals (Fin.castLE (by omega) r) * ddGrads r c)
    + ∑ k : Fin 6, sGradVals ⟨k.val + 9, by omega⟩ * fGradVals k c

lemma foldl_add_fun_eq_sum {n : ℕ} (g : Fin n → Fin 12 → ℚ) (init : Fin 12 → ℚ) :
    (List.finRange n).foldl (fun acc i c => acc c + g i c) init
      = fun c => init c + ∑ i : Fin n, g i c := by
  induction n generalizing init with
  | zero => funext c; simp [List.finRange]
  | succ m ih =>
    rw [List.finRange_succ_eq_map, List.foldl_cons, List.foldl_map]
    rw [ih (fun i c => g i.succ c) (fun c => init c + g 0 c)]
    funext c
    rw [Fin.sum_univ_succ]
    ring

/-- C6. For every supplied building-block values (15 second-layer scalars
per pair, six 12-vector first-layer gradients, the constant 9×12 matrix
`dd`), the per-pair conservative contact force computed by the force-only
path equals the spec's formula `s_grad[:9] · dd + Σ_{k=0..5} s_grad[9+k] ·
f_grad[k]`, and the Hessian-path force (`_optimize_chain_rule` starting from
the zero buffer) computes the identical vector.  Both paths act on each pair
independently (the batched numpy rows are embedded per-row). -/
theorem chain_rule_force_correct (ddGrads : Fin 9 → Fin 12 → ℚ)
    (fGradVals : Fin 6 → Fin 12 → ℚ) (sGradVals : Fin 15 → ℚ) :
    chainRuleContactNohess ddGrads fGradVals sGradVals
        = specContactForce ddGrads fGradVals sGradVals ∧
    optimizeChainRuleDEdx ddGrads fGradVals sGradVals zeros12
        = specContactForce ddGrads fGradVals sGradVals ∧
    optimizeChainRuleDEdx ddGrads fGradVals sGradVals zeros12
        = chainRuleContactNohess ddGrads fGradVals sGradVals := by
  have h1 : chainRuleContactNohess ddGrads fGradVals sGradVals
      = specContactForce ddGrads fGradVals sGradVals := by
    unfold chainRuleContactNohess
    rw [foldl_add_fun_eq_sum (fun i c => sGradVals ⟨i.val + 9, by omega⟩ * fGradVals i c)]
    funext c
    simp only [specContactForce, zeros12]
    ring
  have h2 : optimizeChainRuleDEdx ddGrads fGradVals sGradVals zeros12
      = chainRuleContactNohess ddGrads fGradVals sGradVals := rfl
  exact ⟨h1, h2.trans h1, h2⟩

/-- A 3-vector (one node's coordinates / velocity / force components). -/
def Vec3 : Type := ℚ × ℚ × ℚ

def v3add (a b : Vec3) : Vec3 := (a.1 + b.1, a.2.1 + b.2.1, a.2.2 + b.2.2)

def v3sub (a b : Vec3) : Vec3 := (a.1 - b.1, a.2.1 - b.2.1, a.2.2 - b.2.2)

def v3neg (a : Vec3) : Vec3 := (-a.1, -a.2.1, -a.2.2)

/-- Left scalar multiple `k * v` (componentwise). -/
def v3scale (k : ℚ) (a : Vec3) : Vec3 := (k * a.1, k * a.2.1, k * a.2.2)

/-- Right scalar multiple `v * k` (componentwise), matching numpy's
`dir * T * ffr_val` grouping. -/
def v3scaleR (a : Vec3) (k : ℚ) : Vec3 := (a.1 * k, a.2.1 * k, a.2.2 * k)

/-- Componentwise division by a scalar, `v / s` (numpy broadcast). -/
def v3divS (a : Vec3) (s : ℚ) : Vec3 := (a.1 / s, a.2.1 / s, a.2.2 / s)

def v3dot (a b : Vec3) : ℚ := a.1 * b.1 + a.2.1 * b.2.1 + a.2.2 * b.2.2

/-- Sum of the three components. -/
def v3compSum (a : Vec3) : ℚ := a.1 + a.2.1 + a.2.2

/-- The sign assignment of `IMC._get_ffr` lines 129-134: `+1`, `-1`, or `0`. -/
def sgnf (x : ℚ) : ℚ := if 0 < x then 1 else if x < 0 then -1 else 0

/-- Embedding of `IMC._get_ffr` (lines 100-148) for one pair (one row of the batch).
`edges` is split as `x1s x1e x2s x2e`, `velocities` as `v1s v1e v2s v2e`;
only the first six force entries (`f1s f1e`) are read.  `np.sqrt` is the
opaque parameter `sq`.  The result is the row `ffr`, as its four 3-vector
blocks `ffr[:3], ffr[3:6], ffr[6:9], ffr[9:]`. -/
def getFfr (sq : ℚ → ℚ) (x1s x1e x2s x2e v1s v1e v2s v2e f1s f1e : Vec3)
    (muK : ℚ) : Vec3 × Vec3 × Vec3 × Vec3 :=
  let d2 := v3sub x2e x2s
  let T1 := v3divS d2 (sq (v3dot d2 d2))
  let d1 := v3sub x1e x1s
  let T2 := v3divS d1 (sq (v3dot d1 d1))
  let fsum := v3add f1s f1e
  let fn := sq (v3dot fsum fsum)
  let ffrVal := muK * fn
  let v1 := v3scale (1 / 2) (v3add v1s v1e)
  let v2 := v3scale (1 / 2) (v3add v2s v2e)
  let vr1 := v3sub v1 v2
  let dir1 := sgnf (v3dot vr1 T1)
  let dir2 := sgnf (v3dot (v3neg vr1) T2)
  let ffr1 := v3scaleR (v3scale dir1 T1) ffrVal
  let ffr2 := v3scaleR (v3scale dir2 T2) ffrVal
  let ffr1x := v3scale (1 / 2) (v3sub ffr1 ffr2)
  let ffr2x := v3neg ffr1x
  (v3scale (1 / 2) ffr1x, v3scale (1 / 2) ffr1x,
    v3scale (1 / 2) ffr2x, v3scale (1 / 2) ffr2x)

/-- C9. For every input (edge coordinates, velocities, forces, friction
coefficient, and any behaviour of the opaque square root), the per-pair
friction force assigns the identical 3-vector to both endpoints of edge 1 and
its exact negation to both endpoints of edge 2
(`ffr[:3] = ffr[3:6] = -ffr[6:9] = -ffr[9:]`); consequently the friction
force summed over the pair's 12 degrees of freedom is exactly zero. -/
theorem ffr_opposite_edges (sq : ℚ → ℚ)
    (x1s x1e x2s x2e v1s v1e v2s v2e f1s f1e : Vec3) (muK : ℚ) :
    (getFfr sq x1s x1e x2s x2e v1s v1e v2s v2e f1s f1e muK).1
        = (getFfr sq x1s x1e x2s x2e v1s v1e v2s v2e f1s f1e muK).2.1 ∧
    (getFfr sq x1s x1e x2s x2e v1s v1e v2s v2e f1s f1e muK).2.2.1
        = v3neg (getFfr sq x1s x1e x2s x2e v1s v1e v2s v2e f1s f1e muK).1 ∧
    (getFfr sq x1s x1e x2s x2e v1s v1e v2s v2e f1s f1e muK).2.2.2
        = v3neg (getFfr sq x1s x1e x2s x2e v1s v1e v2s v2e f1s f1e muK).1 ∧
    v3compSum (getFfr sq x1s x1e x2s x2e v1s v1e v2s v2e f1s f1e muK).1
      + v3compSum (getFfr sq x1s x1e x2s x2e v1s v1e v2s v2e f1s f1e muK).2.1
      + v3compSum (getFfr sq x1s x1e x2s x2e v1s v1e v2s v2e f1s f1e muK).2.2.1
      + v3compSum (getFfr sq x1s x1e x2s x2e v1s v1e v2s v2e f1s f1e muK).2.2.2 = 0 := by
  simp only [getFfr, v3neg, v3scale, v3scaleR, v3sub, v3compSum, Prod.mk.injEq]
  and_intros <;> first | trivial | ring_nf

/-- Embedding of `IMC._update_contact_stiffness` (lines 446-458): the hysteretic
penalty-stiffness control law, acting on the scalar `contact_stiffness`. -/
def updateContactStiffness (contactLen k currCd lastCd : ℚ) : ℚ :=
  let diff := currCd - lastCd
  if currCd > contactLen + 5 / 1000 ∧ diff > 0 then k * (999 / 1000)
  else if diff < 0 then
    if currCd < contactLen - 4 / 1000 then k * (101 / 100)
    else if currCd < contactLen - 2 / 1000 then k * (201 / 200)
    else if currCd < contactLen - 1 / 1000 then k * (1003 / 1000)
    else if currCd < contactLen then k * (1001 / 1000)
    else k
  else k

/-- C7. The stiffness update law: ×0.999 exactly when the distance exceeds
`contact_len + 0.005` and increased; otherwise, when the distance decreased,
×1.01 / ×1.005 / ×1.003 / ×1.001 on the four bands below `contact_len`, and
unchanged at or above `contact_len`; unchanged whenever the distance did not
decrease (and the decay condition does not hold). -/
theorem stiffness_update_law (contactLen k currCd lastCd : ℚ) :
    (currCd > contactLen + 5 / 1000 ∧ lastCd < currCd →
      updateContactStiffness contactLen k currCd lastCd = k * (999 / 1000)) ∧
    (currCd < lastCd →
      (currCd < contactLen - 4 / 1000 →
        updateContactStiffness contactLen k currCd lastCd = k * (101 / 100)) ∧
      (contactLen - 4 / 1000 ≤ currCd ∧ currCd < contactLen - 2 / 1000 →
        updateContactStiffness contactLen k currCd lastCd = k * (201 / 200)) ∧
      (contactLen - 2 / 1000 ≤ currCd ∧ currCd < contactLen - 1 / 1000 →
        updateContactStiffness contactLen k currCd lastCd = k * (1003 / 1000)) ∧
      (contactLen - 1 / 1000 ≤ currCd ∧ currCd < contactLen →
        updateContactStiffness contactLen k currCd lastCd = k * (1001 / 1000)) ∧
      (contactLen ≤ currCd →
        updateContactStiffness contactLen k currCd lastCd = k)) ∧
    (¬(currCd > contactLen + 5 / 1000 ∧ lastCd < currCd) → ¬(currCd < lastCd) →
      updateContactStiffness contactLen k currCd lastCd = k) := by
  unfold updateContactStiffness
  refine ⟨?_, ?_, ?_⟩
  · intro h
    rw [if_pos]
    exact ⟨h.1, by linarith [h.2]⟩
  · intro hdec
    have hnot : ¬(currCd > contactLen + 5 / 1000 ∧ currCd - lastCd > 0) := by
      rintro ⟨_, hpos⟩
      linarith
    rw [if_neg hnot, if_pos (by linarith : currCd - lastCd < 0)]
    refine ⟨?_, ?_, ?_, ?_, ?_⟩
    · intro h1
      rw [if_pos h1]
    · rintro ⟨hge, hlt⟩
      rw [if_neg (by linarith), if_pos hlt]
    · rintro ⟨hge, hlt⟩
      rw [if_neg (by linarith), if_neg (by linarith), if_pos hlt]
    · rintro ⟨hge, hlt⟩
      rw [if_neg (by linarith), if_neg (by linarith), if_neg (by linarith), if_pos hlt]
    · intro hge
      rw [if_neg (by linarith), if_neg (by linarith), if_neg (by linarith),
        if_neg (by linarith)]
  · intro hnot1 hnot2
    rw [if_neg, if_neg]
    · intro h
      exact hnot2 (by linarith)
    · rintro ⟨ha, hb⟩
      exact hnot1 ⟨ha, by linarith⟩

/-- C7 witness. With `contact_len = 1`, a distance that rose from `1` to
`2` (above the `1.005` decay threshold) multiplies a unit stiffness by
`0.999`; one that fell from `2` to `0.5` (deep penetration band) multiplies it
by `1.01`. -/
theorem stiffness_update_law_witness :
    updateContactStiffness 1 1 2 1 = 999 / 1000 ∧
    updateContactStiffness 1 1 (1 / 2) 2 = 101 / 100 := by
  constructor
  · have h := (stiffness_update_law 1 1 2 1).1 ⟨by norm_num, by norm_num⟩
    rw [h]
    norm_num
  · have h := ((stiffness_update_law 1 1 (1 / 2) 2).2.1 (by norm_num)).1 (by norm_num)
    rw [h]
    norm_num

/-- Slice accumulation `buf[s : s + len(vals)] += vals` (numpy `+=` on a
contiguous slice; in-contract calls never run past the end of the buffer). -/
def addAt : List Flt → ℕ → List Flt → List Flt
  | [], _, _ => []
  | b :: bs, 0, [] => b :: bs
  | b :: bs, 0, v :: vs => b.add v :: addAt bs 0 vs
  | b :: bs, s + 1, vals => b :: addAt bs s vals

/-- Block accumulation `h[r : r + len(blk), c : c + len(blk[0])] += blk`. -/
def addRowsAt : List (List Flt) → ℕ → ℕ → List (List Flt) → List (List Flt)
  | [], _, _, _ => []
  | row :: rows, 0, _, [] => row :: rows
  | row :: rows, 0, c, blk0 :: blks => addAt row c blk0 :: addRowsAt rows 0 c blks
  | row :: rows, s + 1, c, blk => row :: addRowsAt rows s c blk

/-- Embedding of `IMC._py_to_cpp_nohess` (lines 334-344): scatter-add each pair's 12 force
entries into the global buffer at the two 6-scalar node blocks `3*e1` and
`3*e2`. -/
def pyToCppNohess (pyForces : List (List Flt)) (edgeIds : List (ℕ × ℕ))
    (cppForces : List Flt) : List Flt :=
  (pyForces.zip edgeIds).foldl
    (fun buf fe => addAt (addAt buf (3 * fe.2.1) (fe.1.take 6)) (3 * fe.2.2) (fe.1.drop 6))
    cppForces

/-- One pair's four 6×6 blocks of `IMC._jit_py_to_cpp_hess` (lines 326-329). -/
def pyToCppHessPair (h : List (List Flt)) (e1 e2 : ℕ) (jac : List (List Flt)) :
    List (List Flt) :=
  addRowsAt
    (addRowsAt
      (addRowsAt
        (addRowsAt h (3 * e1) (3 * e1) ((jac.take 6).map (fun r => r.take 6)))
        (3 * e1) (3 * e2) ((jac.take 6).map (fun r => r.drop 6)))
      (3 * e2) (3 * e1) ((jac.drop 6).map (fun r => r.take 6)))
    (3 * e2) (3 * e2) ((jac.drop 6).map (fun r => r.drop 6))

/-- The Hessian half of `IMC._jit_py_to_cpp_hess` (lines 315-329); the force
half is `pyToCppNohess` (the source interleaves both in one loop over pairs;
the two buffers are disjoint, so the scatter is embedded per buffer). -/
def pyToCppHessJac (pyJacs : List (List (List Flt))) (edgeIds : List (ℕ × ℕ))
    (cppJac : List (List Flt)) : List (List Flt) :=
  (pyJacs.zip edgeIds).foldl (fun h je => pyToCppHessPair h je.2.1 je.2.2 je.1) cppJac

/-- Scaling `self.forces[:] *= self.contact_stiffness` (lines 382, 443). -/
def scaleBuf (k : ℚ) (buf : List Flt) : List Flt := buf.map (Flt.mulQ k)

/-- Scaling `self.hessian[:] *= self.contact_stiffness` (line 444). -/
def scaleHess (k : ℚ) (h : List (List Flt)) : List (List Flt) :=
  h.map (fun row => row.map (Flt.mulQ k))

/-- Per-pair elementwise addition of two force batches (`dE_dx + ffr`). -/
def zipAdd (a b : List (List Flt)) : List (List Flt) :=
  List.zipWith (List.zipWith Flt.add) a b

/-- Per-pair elementwise addition of two Hessian batches
(`d2E_dx2 + ffr_jacobian`). -/
def zipAdd3 (a b : List (List (List Flt))) : List (List (List Flt)) :=
  List.zipWith (List.zipWith (List.zipWith Flt.add)) a b

/-- Aggregate `total_forces = dE_dx + ffr if self.friction else dE_dx`
(lines 368-371 / 421-425). -/
def totalForcesOf (dEdx ffr : List (List Flt)) (friction : Bool) : List (List Flt) :=
  if friction then zipAdd dEdx ffr else dEdx

/-- Aggregate `total_jacobian = d2E_dx2 + ffr_jacobian if self.friction else d2E_dx2`
(lines 421-426). -/
def totalJacOf (d2E ffrJac : List (List (List Flt))) (friction : Bool) :
    List (List (List Flt)) :=
  if friction then zipAdd3 d2E ffrJac else d2E

/-- Tail of `IMC._get_forces` (lines 346-382), from the point where the
per-pair aggregates exist.  The opaque pickled providers and the concrete
chain-rule/friction arithmetic that produce `dE_dx` and `ffr` are abstracted
as the already-computed arguments; that part of the pipeline is verified
separately (`chainRuleContactNohess`, `getFfr`).  The two `assert`s on
`np.sum(total_forces)` abort the step (`Except.error`) before anything is
written to the shared buffer. -/
def getForcesModel (dEdx ffr : List (List Flt)) (friction : Bool)
    (edgeIds : List (ℕ × ℕ)) (k : ℚ) (cppForces : List Flt) :
    Except SrvErr (List Flt) :=
  let totalForces := totalForcesOf dEdx ffr friction
  let fTest := Flt.sum totalForces.flatten
  if fTest.isNan then Except.error SrvErr.forceNan
  else if fTest.isInf then Except.error SrvErr.forceInf
  else Except.ok (scaleBuf k (pyToCppNohess totalForces edgeIds cppForces))

/-- The validity test of `IMC._get_forces_and_hessian` (lines 429-435):
NaN/Inf in `np.sum(total_forces)` or `np.sum(total_jacobian)`. -/
def aggregatesInvalid (dEdx ffr : List (List Flt)) (d2E ffrJac : List (List (List Flt)))
    (friction : Bool) : Bool :=
  let fTest := Flt.sum (totalForcesOf dEdx ffr friction).flatten
  let hTest := Flt.sum (totalJacOf d2E ffrJac friction).flatten.flatten
  fTest.isNan || fTest.isInf || hTest.isNan || hTest.isInf

/-- Tail of `IMC._get_forces_and_hessian` (lines 384-444), from the point
where the per-pair aggregates exist (providers abstracted as in
`getForcesModel`).  The four asserts are wrapped in
`try ... except AssertionError: total_jacobian = d2E_dx2`: on any NaN/Inf the
friction jacobian is dropped from the Hessian, no exception escapes, and both
buffers — the forces included — are still written and scaled. -/
def getForcesAndHessianModel (dEdx ffr : List (List Flt))
    (d2E ffrJac : List (List (List Flt))) (friction : Bool)
    (edgeIds : List (ℕ × ℕ)) (k : ℚ) (cppForces : List Flt)
    (cppHess : List (List Flt)) : List Flt × List (List Flt) :=
  let totalForces := totalForcesOf dEdx ffr friction
  let totalJac :=
    if aggregatesInvalid dEdx ffr d2E ffrJac friction then d2E
    else totalJacOf d2E ffrJac friction
  (scaleBuf k (pyToCppNohess totalForces edgeIds cppForces),
    scaleHess k (pyToCppHessJac totalJac edgeIds cppHess))

/-- C1 (amended). When the aggregate contact force contains a NaN or
infinite value, the force-only path `_get_forces` aborts the step before
anything is written; but the force-plus-Hessian path `_get_forces_and_hessian`
does *not* abort — its `except AssertionError` swallows the force assertion,
only the friction-jacobian term of the Hessian is discarded, and the forces,
invalid values included, are still scattered into the shared force buffer. -/
theorem invalid_force_two_paths (dEdx ffr : List (List Flt))
    (d2E ffrJac : List (List (List Flt))) (friction : Bool)
    (edgeIds : List (ℕ × ℕ)) (k : ℚ) (cppForces : List Flt)
    (cppHess : List (List Flt))
    (h : ∃ v ∈ (totalForcesOf dEdx ffr friction).flatten, v.isFin = false) :
    (getForcesModel dEdx ffr friction edgeIds k cppForces = Except.error SrvErr.forceNan ∨
      getForcesModel dEdx ffr friction edgeIds k cppForces = Except.error SrvErr.forceInf) ∧
    (getForcesAndHessianModel dEdx ffr d2E ffrJac friction edgeIds k cppForces cppHess).1
      = scaleBuf k (pyToCppNohess (totalForcesOf dEdx ffr friction) edgeIds cppForces) := by
  have hnf := Flt.sum_not_fin h
  refine ⟨?_, rfl⟩
  rcases Flt.not_fin_nan_or_inf hnf with hn | hi
  · refine Or.inl ?_
    simp only [getForcesModel]
    rw [if_pos hn]
  · by_cases hn : (Flt.sum (totalForcesOf dEdx ffr friction).flatten).isNan = true
    · refine Or.inl ?_
      simp only [getForcesModel]
      rw [if_pos hn]
    · refine Or.inr ?_
      simp only [getForcesModel]
      rw [if_neg hn, if_pos hi]

/-- C1 witness. A single active pair whose aggregate force is NaN: the
force-only path errors out, and the Hessian path still writes the NaN into
the force buffer slot `0`. -/
theorem invalid_force_two_paths_witness :
    (getForcesModel [[Flt.nan]] [] false [(0, 0)] 1 [Flt.fin 0] = Except.error SrvErr.forceNan ∨
      getForcesModel [[Flt.nan]] [] false [(0, 0)] 1 [Flt.fin 0] = Except.error SrvErr.forceInf) ∧
    (getForcesAndHessianModel [[Flt.nan]] [] [] [] false [(0, 0)] 1 [Flt.fin 0] []).1
      = scaleBuf 1 (pyToCppNohess (totalForcesOf [[Flt.nan]] [] false) [(0, 0)] [Flt.fin 0]) :=
  invalid_force_two_paths [[Flt.nan]] [] [] [] false [(0, 0)] 1 [Flt.fin 0] []
    ⟨Flt.nan, by decide, rfl⟩

/-- C1 counterexample. The claim says the invalid force is never silently
written in the Hessian path; here the written force buffer is exactly
`[NaN]` — the NaN went straight into shared memory and no error was raised. -/
theorem invalid_force_hessian_path_counterexample :
    (getForcesAndHessianModel [[Flt.nan]] [] [] [] false [(0, 0)] 1 [Flt.fin 0] []).1
      = [Flt.nan] := by decide

/-- The opaque environment of one server process: startup parameters, the
external `imc_utils` distance primitives, and the composite per-pair force /
Hessian providers (the pickled gradient functions chained through the
concrete chain-rule code, which is verified separately at the per-pair level;
at the server level only the produced aggregates matter). -/
structure Env where
  scale : ℚ
  contactLen : ℚ
  collisionLimit : ℚ
  numEdges : ℕ
  minDist : List ℚ → ℚ
  minDistF : List ℚ → ℚ
  fOut : List ℚ → List ℚ
  dEdxOf : List (List ℚ) → List (List ℚ) → List (List Flt)
  ffrOf : List (List ℚ) → List (List ℚ) → List (List Flt) → List (List Flt)
  d2EOf : List (List ℚ) → List (List ℚ) → List (List (List Flt))
  ffrJacOf : List (List ℚ) → List (List ℚ) → List (List Flt) → List (List (List Flt))

/-- One solver request: the control flags read from `meta_data`
(`hessian = meta[5]`, `first_iter = meta[0]`, `friction = meta[1]`) and the
position/velocity buffers as last written by the solver. -/
structure Req where
  firstIter : Bool
  friction : Bool
  hessReq : Bool
  positions : List ℚ
  velocities : List ℚ
deriving DecidableEq, Repr

/-- The state carried across requests by `IMC.start_server` (lines 460-525):
the stiffness scalar, the loop locals `last_cd`, `closest_distance`,
`edge_ids` (`none` until the first detection), the velocity snapshot, the two
shared output buffers, and the diagnostics slot `meta_data[4]`. -/
structure SrvState where
  stiffness : ℚ
  lastCd : ℚ
  cd : ℚ
  edgeIds : Option (List (ℕ × ℕ))
  velSnap : List (List ℚ)
  forces : List Flt
  hessian : List (List Flt)
  diag : ℚ
deriving DecidableEq, Repr

/-- Scaling `self.node_coordinates *= self.scale` (line 481). -/
def scaledPos (env : Env) (req : Req) : List ℚ :=
  req.positions.map (fun q => q * env.scale)

/-- Scaling `self.velocities *= self.scale` (line 485, first iteration only). -/
def scaledVel (env : Env) (req : Req) : List ℚ :=
  req.velocities.map (fun q => q * env.scale)

/-- Embedding of `IMC._jit_prepare_velocities` (lines 189-200): the per-pair 12-entry
velocity rows `velocity_data[3x:3x+6] ++ velocity_data[3y:3y+6]`. -/
def prepareVelocities (edgeIds : List (ℕ × ℕ)) (velData : List ℚ) : List (List ℚ) :=
  edgeIds.map (fun p => ((velData.drop (3 * p.1)).take 6) ++ ((velData.drop (3 * p.2)).take 6))

/-- The distance half of `IMC._jit_prepare_edges` (lines 205-219):
`np.min` of the per-active-pair distances recomputed by the opaque
`min_dist_f_out_vectorized` on the current positions. -/
def activeMinDist (env : Env) (pos : List ℚ) (ids : List (ℕ × ℕ)) : ℚ :=
  listMin ((ids.map (combo12 pos)).map env.minDistF)

/-- The body of the `while 1:` loop of `IMC.start_server` after collision
detection has been dispatched: zero the output buffers (force always, Hessian
only when requested, lines 489-490), read `edge_ids.shape[0]` (line 493 —
`AttributeError` when `edge_ids` is still `None`), and on a nonempty active
set re-derive geometry, update the stiffness on first iterations
(lines 497-501), and run the requested force path (lines 506-509).
`cd1` is the loop-local `closest_distance` on entry to this part. -/
def serverStepCore (env : Env) (st : SrvState) (req : Req) (pos : List ℚ)
    (eOpt : Option (List (ℕ × ℕ))) (cd1 : ℚ) : Except SrvErr SrvState :=
  let forces0 := st.forces.map (fun _ => Flt.fin 0)
  let hess0 :=
    if req.hessReq then st.hessian.map (fun row => row.map (fun _ => Flt.fin 0))
    else st.hessian
  match eOpt with
  | none => Except.error SrvErr.undefinedActive
  | some ids =>
    if ids.isEmpty then
      Except.ok { stiffness := st.stiffness, lastCd := if req.firstIter then cd1 else st.lastCd,
                  cd := cd1, edgeIds := some ids, velSnap := st.velSnap,
                  forces := forces0, hessian := hess0, diag := cd1 / env.scale }
    else
      let velSnap := if req.firstIter then prepareVelocities ids (scaledVel env req)
                     else st.velSnap
      let combos := ids.map (combo12 pos)
      let cd2 := listMin (combos.map env.minDistF)
      let fOuts := combos.map env.fOut
      let kNew := if req.firstIter then updateContactStiffness env.contactLen st.stiffness cd2 st.lastCd
                  else st.stiffness
      let dEdx := env.dEdxOf combos fOuts
      let ffr := env.ffrOf combos velSnap dEdx
      if req.hessReq then
        let d2E := env.d2EOf combos fOuts
        let fJac := env.ffrJacOf combos velSnap dEdx
        let fh := getForcesAndHessianModel dEdx ffr d2E fJac req.friction ids kNew forces0 hess0
        Except.ok { stiffness := kNew, lastCd := if req.firstIter then cd2 else st.lastCd,
                    cd := cd2, edgeIds := some ids, velSnap := velSnap,
                    forces := fh.1, hessian := fh.2, diag := cd2 / env.scale }
      else
        match getForcesModel dEdx ffr req.friction ids kNew forces0 with
        | Except.error e => Except.error e
        | Except.ok f2 =>
          Except.ok { stiffness := kNew, lastCd := if req.firstIter then cd2 else st.lastCd,
                      cd := cd2, edgeIds := some ids, velSnap := velSnap,
                      forces := f2, hessian := hess0, diag := cd2 / env.scale }

/-- One full iteration of the `while 1:` loop of `IMC.start_server`
(lines 472-525): scale the positions, on `first_iter` scale velocities and
re-run collision detection (lines 484-486), then `serverStepCore`.
`Except.ok` is a completed request (the reply `socket.send` and the
`last_cd`/`meta_data[4]` updates are folded into the returned state);
`Except.error` is an escaped Python exception — the process dies before the
reply. -/
def serverStep (env : Env) (st : SrvState) (req : Req) : Except SrvErr SrvState :=
  let pos := scaledPos env req
  if req.firstIter then
    match jitDetectCollisions env.minDist env.numEdges pos env.contactLen env.collisionLimit with
    | Except.error e => Except.error e
    | Except.ok (ids, c) => serverStepCore env st req pos (some ids) c
  else serverStepCore env st req pos st.edgeIds st.cd

/-- The server loop over a finite request trace. -/
def runServer (env : Env) : SrvState → List Req → Except SrvErr SrvState
  | st, [] => Except.ok st
  | st, r :: rs =>
    match serverStep env st r with
    | Except.error e => Except.error e
    | Except.ok st2 => runServer env st2 rs

/-- The state the server starts with (lines 467-470: `edge_ids = None`,
`closest_distance = 0`, `last_cd = 0`), with given initial stiffness and
buffer contents. -/
def initState (k : ℚ) (forces : List Flt) (hessian : List (List Flt)) : SrvState :=
  { stiffness := k, lastCd := 0, cd := 0, edgeIds := none, velSnap := [],
    forces := forces, hessian := hessian, diag := 0 }

lemma getForcesModel_error {dEdx ffr friction edgeIds k cppForces e}
    (h : getForcesModel dEdx ffr friction edgeIds k cppForces = Except.error e) :
    e = SrvErr.forceNan ∨ e = SrvErr.forceInf := by
  simp only [getForcesModel] at h
  split at h
  · injection h with h1
    exact Or.inl h1.symm
  · split at h
    · injection h with h1
      exact Or.inr h1.symm
    · exact absurd h (by simp)

lemma jitDetectCollisions_error {minDist numEdges nodeData contactLen collisionLimit e}
    (h : jitDetectCollisions minDist numEdges nodeData contactLen collisionLimit
      = Except.error e) : e = SrvErr.emptyMin := by
  simp only [jitDetectCollisions] at h
  split at h
  · injection h with h1
    exact h1.symm
  · exact absurd h (by simp)

lemma serverStepCore_error {env : Env} {st : SrvState} {req : Req} {pos : List ℚ}
    {eOpt : Option (List (ℕ × ℕ))} {cd1 : ℚ} {e : SrvErr}
    (h : serverStepCore env st req pos eOpt cd1 = Except.error e) :
    (eOpt = none ∧ e = SrvErr.undefinedActive) ∨
    ((e = SrvErr.forceNan ∨ e = SrvErr.forceInf) ∧ req.hessReq = false) := by
  cases eOpt with
  | none =>
    simp only [serverStepCore] at h
    injection h with h1
    exact Or.inl ⟨rfl, h1.symm⟩
  | some ids =>
    simp only [serverStepCore] at h
    split at h
    · exact absurd h (by simp)
    · split at h
      · exact absurd h (by simp)
      · rename_i hhess
        split at h
        · rename_i e0 hForce
          injection h with h1
          subst h1
          refine Or.inr ⟨getForcesModel_error hForce, ?_⟩
          cases hb : req.hessReq with
          | true => exact absurd hb hhess
          | false => rfl
        · exact absurd h (by simp)

lemma serverStepCore_ok_edgeIds {env : Env} {st : SrvState} {req : Req} {pos : List ℚ}
    {eOpt : Option (List (ℕ × ℕ))} {cd1 : ℚ} {st2 : SrvState}
    (h : serverStepCore env st req pos eOpt cd1 = Except.ok st2) :
    ∃ ids, eOpt = some ids ∧ st2.edgeIds = some ids := by
  cases eOpt with
  | none => exact absurd h (by simp [serverStepCore])
  | some ids =>
    simp only [serverStepCore] at h
    refine ⟨ids, rfl, ?_⟩
    split at h
    · injection h with h1
      rw [h1.symm]
    · split at h
      · injection h with h1
        rw [h1.symm]
      · split at h
        · exact absurd h (by simp)
        · injection h with h1
          rw [h1.symm]

lemma serverStepCore_empty (env : Env) (st : SrvState) (req : Req) (pos : List ℚ)
    (cd1 : ℚ) :
    serverStepCore env st req pos (some []) cd1 = Except.ok
      { stiffness := st.stiffness, lastCd := if req.firstIter then cd1 else st.lastCd,
        cd := cd1, edgeIds := some [], velSnap := st.velSnap,
        forces := st.forces.map (fun _ => Flt.fin 0),
        hessian := if req.hessReq then st.hessian.map (fun row => row.map (fun _ => Flt.fin 0))
                   else st.hessian,
        diag := cd1 / env.scale } := rfl

lemma serverStepCore_ok_stiffness {env : Env} {st : SrvState} {req : Req} {pos : List ℚ}
    {eOpt : Option (List (ℕ × ℕ))} {cd1 : ℚ} {st2 : SrvState}
    (h : serverStepCore env st req pos eOpt cd1 = Except.ok st2) :
    (req.firstIter = false → st2.stiffness = st.stiffness) ∧
    (∀ ids, eOpt = some ids → ids = [] → st2.stiffness = st.stiffness) ∧
    (∀ ids, eOpt = some ids → ids ≠ [] → req.firstIter = true →
      st2.stiffness = updateContactStiffness env.contactLen st.stiffness
        (activeMinDist env pos ids) st.lastCd) := by
  cases eOpt with
  | none => exact absurd h (by simp [serverStepCore])
  | some ids0 =>
    simp only [serverStepCore] at h
    split at h
    · rename_i hEmp
      injection h with h1
      refine ⟨fun _ => by rw [h1.symm], fun ids hids _ => by rw [h1.symm], ?_⟩
      intro ids hids hne _
      injection hids with hids'
      exact absurd (hids' ▸ List.isEmpty_iff.1 hEmp) hne
    · rename_i hEmp
      have hidsne : ids0 ≠ [] := fun hc => by
        rw [hc] at hEmp
        exact hEmp List.isEmpty_nil
      split at h
      · injection h with h1
        refine ⟨?_, ?_, ?_⟩
        · intro hf
          rw [h1.symm]
          simp only [hf, Bool.false_eq_true, if_false]
        · intro ids hids hnil
          injection hids with hids'
          exact absurd (hids' ▸ hnil) hidsne
        · intro ids hids hne hf
          injection hids with hids'
          subst hids'
          rw [h1.symm]
          simp only [hf, if_true]
          rfl
      · split at h
        · exact absurd h (by simp)
        · injection h with h1
          refine ⟨?_, ?_, ?_⟩
          · intro hf
            rw [h1.symm]
            simp only [hf, Bool.false_eq_true, if_false]
          · intro ids hids hnil
            injection hids with hids'
            exact absurd (hids' ▸ hnil) hidsne
          · intro ids hids hne hf
            injection hids with hids'
            subst hids'
            rw [h1.symm]
            simp only [hf, if_true]
            rfl

lemma serverStep_error_cases {env : Env} {st : SrvState} {req : Req} {e : SrvErr}
    (h : serverStep env st req = Except.error e) :
    e = SrvErr.emptyMin ∨
    (st.edgeIds = none ∧ req.firstIter = false ∧ e = SrvErr.undefinedActive) ∨
    ((e = SrvErr.forceNan ∨ e = SrvErr.forceInf) ∧ req.hessReq = false) := by
  cases hf : req.firstIter with
  | true =>
    simp only [serverStep, hf, if_pos] at h
    split at h
    · rename_i e0 hdet
      injection h with h1
      exact Or.inl (h1 ▸ jitDetectCollisions_error hdet)
    · rcases serverStepCore_error h with ⟨hc, _⟩ | hr
      · exact absurd hc (by simp)
      · exact Or.inr (Or.inr hr)
  | false =>
    simp only [serverStep, hf, Bool.false_eq_true, if_false] at h
    rcases serverStepCore_error h with ⟨hc, he⟩ | hr
    · exact Or.inr (Or.inl ⟨hc, rfl, he⟩)
    · exact Or.inr (Or.inr hr)

lemma serverStep_ok_edgeIds {env : Env} {st : SrvState} {req : Req} {st2 : SrvState}
    (h : serverStep env st req = Except.ok st2) : ∃ ids, st2.edgeIds = some ids := by
  cases hf : req.firstIter with
  | true =>
    simp only [serverStep, hf, if_pos] at h
    split at h
    · exact absurd h (by simp)
    · obtain ⟨ids, _, h2⟩ := serverStepCore_ok_edgeIds h
      exact ⟨ids, h2⟩
  | false =>
    simp only [serverStep, hf, Bool.false_eq_true, if_false] at h
    obtain ⟨ids, _, h2⟩ := serverStepCore_ok_edgeIds h
    exact ⟨ids, h2⟩

lemma runServer_no_undefined (env : Env) : ∀ (rs : List Req) (st : SrvState),
    st.edgeIds ≠ none → runServer env st rs ≠ Except.error SrvErr.undefinedActive := by
  intro rs
  induction rs with
  | nil =>
    intro st _ hcontra
    exact absurd hcontra (by simp [runServer])
  | cons r rest ih =>
    intro st hsome hcontra
    simp only [runServer] at hcontra
    split at hcontra
    · rename_i e hstep
      injection hcontra with h1
      subst h1
      rcases serverStep_error_cases hstep with h | ⟨hn, _, _⟩ | ⟨hor, _⟩
      · exact absurd h (by simp)
      · exact hsome hn
      · rcases hor with h | h <;> exact absurd h (by simp)
    · rename_i st2 hstep
      obtain ⟨ids, h2⟩ := serverStep_ok_edgeIds hstep
      exact ih st2 (fun hc => by rw [hc] at h2; exact absurd h2 (by simp)) hcontra

/-- A concrete environment: a 4-edge rod (single eligible pair `(0, 3)`)
whose constant pair distance `1/2` never passes the collision filter
(`1/2 - 1 < -1` is false), so the active set is always empty. -/
def envEmptyActive : Env :=
  { scale := 1, contactLen := 1, collisionLimit := -1, numEdges := 4,
    minDist := fun _ => 1 / 2, minDistF := fun _ => 0, fOut := fun _ => [],
    dEdxOf := fun _ _ => [], ffrOf := fun _ _ _ => [], d2EOf := fun _ _ => [],
    ffrJacOf := fun _ _ _ => [] }

/-- A first-iteration request with empty buffers. -/
def reqFlagged : Req :=
  { firstIter := true, friction := false, hessReq := false, positions := [], velocities := [] }

/-- A sub-iteration request (no `first_iteration` flag). -/
def reqUnflagged : Req :=
  { firstIter := false, friction := false, hessReq := false, positions := [], velocities := [] }

/-- C10. The server loop requires the very first request to carry the
`first_iteration` flag: when it does, the active-set variable `edge_ids` is
`some _` at every later read and the run never dies with the
undefined-active-set error (`edge_ids.shape[0]` on `None`); when the first
request does not carry the flag, the very first step reads the undefined
variable and fails before any reply is sent. -/
theorem first_request_flag_required :
    (∀ (env : Env) (st0 : SrvState) (r0 : Req) (rest : List Req),
      r0.firstIter = true →
        runServer env st0 (r0 :: rest) ≠ Except.error SrvErr.undefinedActive) ∧
    (∀ (env : Env) (st0 : SrvState) (req : Req) (rest : List Req),
      st0.edgeIds = none → req.firstIter = false →
        runServer env st0 (req :: rest) = Except.error SrvErr.undefinedActive) := by
  constructor
  · intro env st0 r0 rest hf hcontra
    simp only [runServer] at hcontra
    split at hcontra
    · rename_i e hstep
      injection hcontra with h1
      subst h1
      rcases serverStep_error_cases hstep with h | ⟨_, hff, _⟩ | ⟨hor, _⟩
      · exact absurd h (by simp)
      · rw [hf] at hff
        exact absurd hff (by simp)
      · rcases hor with h | h <;> exact absurd h (by simp)
    · rename_i st2 hstep
      obtain ⟨ids, h2⟩ := serverStep_ok_edgeIds hstep
      exact runServer_no_undefined env rest st2
        (fun hc => by rw [hc] at h2; exact absurd h2 (by simp)) hcontra
  · intro env st0 req rest h0 hf
    have hstep : serverStep env st0 req = Except.error SrvErr.undefinedActive := by
      simp only [serverStep, hf, Bool.false_eq_true, if_false, h0]
      rfl
    simp only [runServer, hstep]

/-- C10 witness. With a 4-edge rod and an out-of-range constant distance,
a flagged first request (empty active set) completes and a following
unflagged request also completes; whereas starting with an unflagged request
kills the server before any reply. -/
theorem first_request_flag_required_witness :
    runServer envEmptyActive (initState 1 [] []) [reqFlagged, reqUnflagged]
      ≠ Except.error SrvErr.undefinedActive ∧
    runServer envEmptyActive (initState 1 [] []) [reqUnflagged]
      = Except.error SrvErr.undefinedActive :=
  ⟨first_request_flag_required.1 envEmptyActive (initState 1 [] []) reqFlagged
      [reqUnflagged] rfl,
    first_request_flag_required.2 envEmptyActive (initState 1 [] []) reqUnflagged [] rfl rfl⟩

instance {ε α : Type} [DecidableEq ε] [DecidableEq α] : DecidableEq (Except ε α) :=
  fun x y =>
    match x, y with
    | Except.error e, Except.error f =>
      if h : e = f then Decidable.isTrue (by rw [h])
      else Decidable.isFalse (fun hc => h (by injection hc))
    | Except.ok a, Except.ok b =>
      if h : a = b then Decidable.isTrue (by rw [h])
      else Decidable.isFalse (fun hc => h (by injection hc))
    | Except.error _, Except.ok _ => Decidable.isFalse (fun hc => Except.noConfusion hc)
    | Except.ok _, Except.error _ => Decidable.isFalse (fun hc => Except.noConfusion hc)

/-- The stiffness field of a completed request (used by concrete runs). -/
def okStiffness (r : Except SrvErr SrvState) : ℚ :=
  match r with
  | Except.ok s => s.stiffness
  | Except.error _ => 0

/-- The force buffer of a completed request. -/
def okForces (r : Except SrvErr SrvState) : List Flt :=
  match r with
  | Except.ok s => s.forces
  | Except.error _ => []

/-- The Hessian buffer of a completed request. -/
def okHessian (r : Except SrvErr SrvState) : List (List Flt) :=
  match r with
  | Except.ok s => s.hessian
  | Except.error _ => []

/-- The active set of a completed request. -/
def okEdgeIds (r : Except SrvErr SrvState) : Option (List (ℕ × ℕ)) :=
  match r with
  | Except.ok s => s.edgeIds
  | Except.error _ => none

/-- C2 (amended). On a completed request without `first_iteration`,
`contact_stiffness` is unchanged.  On a completed `first_iteration` request
the Stiffness Controller runs exactly once *only when the freshly detected
active set is nonempty*, and its input is the minimum distance over the
*active pairs* (recomputed by the edge-preparation step on the current
positions), not the global minimum over all eligible pairs; when the active
set is empty the controller is skipped and `contact_stiffness` is unchanged. -/
theorem stiffness_controller_per_request (env : Env) (st : SrvState) (req : Req)
    (st2 : SrvState) (hok : serverStep env st req = Except.ok st2) :
    (req.firstIter = false → st2.stiffness = st.stiffness) ∧
    (req.firstIter = true → ∀ ids cd1,
      jitDetectCollisions env.minDist env.numEdges (scaledPos env req) env.contactLen
        env.collisionLimit = Except.ok (ids, cd1) →
      (ids = [] → st2.stiffness = st.stiffness) ∧
      (ids ≠ [] → st2.stiffness = updateContactStiffness env.contactLen st.stiffness
        (activeMinDist env (scaledPos env req) ids) st.lastCd)) := by
  cases hf : req.firstIter with
  | false =>
    simp only [serverStep, hf, Bool.false_eq_true, if_false] at hok
    exact ⟨fun _ => (serverStepCore_ok_stiffness hok).1 hf, fun hc => absurd hc (by simp)⟩
  | true =>
    simp only [serverStep, hf, if_pos] at hok
    split at hok
    · exact absurd hok (by simp)
    · rename_i ids0 c0 hdet
      refine ⟨fun hc => absurd hc (by simp), fun _ => ?_⟩
      intro ids cd1 hdet2
      rw [hdet] at hdet2
      injection hdet2 with hp
      injection hp with h1 h2
      subst h1
      exact ⟨fun hnil => (serverStepCore_ok_stiffness hok).2.1 ids0 rfl hnil,
        fun hne => (serverStepCore_ok_stiffness hok).2.2 ids0 rfl hne hf⟩

/-- A pre-request state whose previous minimum distance is `2` and whose
stiffness is `1` (loop locals as left by an earlier timestep). -/
def stPrevFar : SrvState :=
  { stiffness := 1, lastCd := 2, cd := 0, edgeIds := none, velSnap := [],
    forces := [], hessian := [], diag := 0 }

unseal Rat.add Rat.sub Rat.mul Rat.inv in
/-- C2 counterexample. A `first_iteration` request whose active set is
empty while the global minimum distance (`1/2`, down from `2`) sits deep in
the growth band: the claim mandates one controller run, which would multiply
the stiffness by `1.01`; the code skips the controller entirely and leaves
the stiffness at `1`. -/
theorem stiffness_controller_counterexample :
    okStiffness (serverStep envEmptyActive stPrevFar reqFlagged) = 1 ∧
    okEdgeIds (serverStep envEmptyActive stPrevFar reqFlagged) = some [] ∧
    updateContactStiffness envEmptyActive.contactLen 1 (1 / 2) 2 = 101 / 100 ∧
    (1 : ℚ) ≠ 101 / 100 := by decide

/-- A 4-edge environment whose single eligible pair `(0, 3)` is always
active (`0 - 0 < 1`), with per-pair re-preparation distance `1/2` and trivial
finite providers. -/
def envActivePair : Env :=
  { scale := 1, contactLen := 0, collisionLimit := 1, numEdges := 4,
    minDist := fun _ => 0, minDistF := fun _ => 1 / 2, fOut := fun _ => [],
    dEdxOf := fun _ _ => [[]], ffrOf := fun _ _ _ => [[]], d2EOf := fun _ _ => [[]],
    ffrJacOf := fun _ _ _ => [[]] }

/-- A pre-request state with stiffness `5` and previous minimum distance `7`. -/
def stPrevSeven : SrvState :=
  { stiffness := 5, lastCd := 7, cd := 0, edgeIds := none, velSnap := [],
    forces := [], hessian := [], diag := 0 }

unseal Rat.add Rat.sub Rat.mul Rat.inv in
/-- C2 witness. On a first-iteration request with the nonempty active set
`[(0, 3)]`, the post-request stiffness is exactly the controller applied to
the active-pair minimum distance `1/2` and the previous value `7`. -/
theorem stiffness_controller_witness :
    okStiffness (serverStep envActivePair stPrevSeven reqFlagged)
      = updateContactStiffness 0 5 (1 / 2) 7 := by
  have hnn : (serverStep envActivePair stPrevSeven reqFlagged).toOption ≠ none := by decide
  rcases hE : serverStep envActivePair stPrevSeven reqFlagged with e | st2
  · rw [hE] at hnn
    exact absurd rfl hnn
  · have hdet : jitDetectCollisions envActivePair.minDist envActivePair.numEdges
        (scaledPos envActivePair reqFlagged) envActivePair.contactLen
        envActivePair.collisionLimit = Except.ok ([(0, 3)], 0) := by decide
    have h := ((stiffness_controller_per_request envActivePair stPrevSeven reqFlagged st2
      hE).2 rfl) [(0, 3)] 0 hdet
    have h2 := h.2 (by decide)
    have hmin : activeMinDist envActivePair (scaledPos envActivePair reqFlagged) [(0, 3)]
        = 1 / 2 := by decide
    simp only [okStiffness]
    rw [h2, hmin]
    rfl

/-- C3 (amended). If the active set of a completed request is empty, the
output force buffer is exactly zero afterwards regardless of its prior
contents; the Hessian buffer is exactly zero *only when the
hessian-requested flag is set* — without the flag it is left untouched and
retains its prior contents. -/
theorem empty_active_step_buffers (env : Env) (st : SrvState) (req : Req)
    (st2 : SrvState) (hok : serverStep env st req = Except.ok st2)
    (hempty : st2.edgeIds = some []) :
    st2.forces = st.forces.map (fun _ => Flt.fin 0) ∧
    (req.hessReq = true →
      st2.hessian = st.hessian.map (fun row => row.map (fun _ => Flt.fin 0))) ∧
    (req.hessReq = false → st2.hessian = st.hessian) := by
  have hcore : ∃ pos cd1, serverStepCore env st req pos (some []) cd1 = Except.ok st2 := by
    cases hf : req.firstIter with
    | false =>
      simp only [serverStep, hf, Bool.false_eq_true, if_false] at hok
      obtain ⟨ids, heq, hIds⟩ := serverStepCore_ok_edgeIds hok
      rw [hempty] at hIds
      injection hIds with hIds2
      rw [heq, hIds2.symm] at hok
      exact ⟨_, _, hok⟩
    | true =>
      simp only [serverStep, hf, if_pos] at hok
      split at hok
      · exact absurd hok (by simp)
      · obtain ⟨ids, heq, hIds⟩ := serverStepCore_ok_edgeIds hok
        rw [hempty] at hIds
        injection hIds with hIds2
        injection heq with heq2
        rw [heq2, hIds2.symm] at hok
        exact ⟨_, _, hok⟩
  obtain ⟨pos, cd1, hcore⟩ := hcore
  rw [serverStepCore_empty] at hcore
  injection hcore with h1
  refine ⟨by rw [h1.symm], ?_, ?_⟩
  · intro hh
    rw [h1.symm]
    simp only [hh, if_true]
  · intro hh
    rw [h1.symm]
    simp only [hh, Bool.false_eq_true, if_false]

unseal Rat.add Rat.sub Rat.mul Rat.inv in
/-- C3 counterexample. An empty-active-set request *without* the
hessian-requested flag leaves a stale nonzero Hessian buffer in place: the
claim demands both buffers be exactly zero for every setting of the flag. -/
theorem empty_active_step_hessian_counterexample :
    okEdgeIds (serverStep envEmptyActive (initState 1 [] [[Flt.fin 1]]) reqFlagged)
      = some [] ∧
    okHessian (serverStep envEmptyActive (initState 1 [] [[Flt.fin 1]]) reqFlagged)
      = [[Flt.fin 1]] ∧
    ([[Flt.fin 1]] : List (List Flt)) ≠ [[Flt.fin 0]] := by decide

/-- The hessian-requested first-iteration request. -/
def reqHessFlagged : Req :=
  { firstIter := true, friction := false, hessReq := true, positions := [], velocities := [] }

unseal Rat.add Rat.sub Rat.mul Rat.inv in
/-- C3 witness. An empty-active-set request zeroes a dirty force buffer;
with the hessian flag set the dirty Hessian buffer is zeroed as well. -/
theorem empty_active_step_buffers_witness :
    okForces (serverStep envEmptyActive (initState 1 [Flt.fin 7] [[Flt.fin 5]]) reqHessFlagged)
      = [Flt.fin 0] ∧
    okHessian (serverStep envEmptyActive (initState 1 [Flt.fin 7] [[Flt.fin 5]]) reqHessFlagged)
      = [[Flt.fin 0]] := by
  have hnn : (serverStep envEmptyActive (initState 1 [Flt.fin 7] [[Flt.fin 5]])
      reqHessFlagged).toOption ≠ none := by decide
  rcases hE : serverStep envEmptyActive (initState 1 [Flt.fin 7] [[Flt.fin 5]]) reqHessFlagged
    with e | st2
  · rw [hE] at hnn
    exact absurd rfl hnn
  · have hemp : st2.edgeIds = some [] := by
      have h0 : okEdgeIds (serverStep envEmptyActive (initState 1 [Flt.fin 7] [[Flt.fin 5]])
          reqHessFlagged) = some [] := by decide
      rw [hE] at h0
      simpa only [okEdgeIds] using h0
    have h := empty_active_step_buffers envEmptyActive
      (initState 1 [Flt.fin 7] [[Flt.fin 5]]) reqHessFlagged st2 hE hemp
    simp only [okForces, okHessian]
    exact ⟨h.1, h.2.1 rfl⟩

/-- C8. In the Hessian-requested path, whenever the aggregate result
(contact plus friction terms, forces or Hessian) contains a NaN or infinite
value, the Hessian written out is the conservative contact Hessian alone —
the friction-jacobian term is discarded — and the step is never interrupted:
with the hessian flag set the server step cannot die with a force
assertion. -/
theorem hessian_nan_fallback :
    (∀ (dEdx ffr : List (List Flt)) (d2E ffrJac : List (List (List Flt)))
      (friction : Bool) (edgeIds : List (ℕ × ℕ)) (k : ℚ) (cppForces : List Flt)
      (cppHess : List (List Flt)),
      aggregatesInvalid dEdx ffr d2E ffrJac friction = true →
      (getForcesAndHessianModel dEdx ffr d2E ffrJac friction edgeIds k cppForces cppHess).2
        = scaleHess k (pyToCppHessJac d2E edgeIds cppHess)) ∧
    (∀ (env : Env) (st : SrvState) (req : Req), req.hessReq = true →
      serverStep env st req ≠ Except.error SrvErr.forceNan ∧
      serverStep env st req ≠ Except.error SrvErr.forceInf) := by
  constructor
  · intro dEdx ffr d2E ffrJac friction edgeIds k cppForces cppHess hbad
    simp only [getForcesAndHessianModel, hbad, if_true]
  · intro env st req hh
    constructor <;> intro hcontra
    · rcases serverStep_error_cases hcontra with h | ⟨_, _, h⟩ | ⟨_, hfalse⟩
      · exact absurd h (by simp)
      · exact absurd h (by simp)
      · rw [hh] at hfalse
        exact absurd hfalse (by simp)
    · rcases serverStep_error_cases hcontra with h | ⟨_, _, h⟩ | ⟨_, hfalse⟩
      · exact absurd h (by simp)
      · exact absurd h (by simp)
      · rw [hh] at hfalse
        exact absurd hfalse (by simp)

unseal Rat.add Rat.sub Rat.mul Rat.inv in
/-- C8 witness. A single pair whose aggregate force is NaN: the written
Hessian equals the scatter of the conservative contact Hessian alone, and a
hessian-requested server step does not die with a force assertion. -/
theorem hessian_nan_fallback_witness :
    (getForcesAndHessianModel [[Flt.nan]] [] [[[Flt.fin 2]]] [] false [(0, 0)] 1
        [Flt.fin 0] [[Flt.fin 3]]).2
      = scaleHess 1 (pyToCppHessJac [[[Flt.fin 2]]] [(0, 0)] [[Flt.fin 3]]) ∧
    serverStep envEmptyActive (initState 1 [] []) reqHessFlagged
      ≠ Except.error SrvErr.forceNan :=
  ⟨hessian_nan_fallback.1 [[Flt.nan]] [] [[[Flt.fin 2]]] [] false [(0, 0)] 1 [Flt.fin 0]
      [[Flt.fin 3]] (by decide),
    (hessian_nan_fallback.2 envEmptyActive (initState 1 [] []) reqHessFlagged rfl).1⟩

end IMC
